import Mathlib

/-!
# Vouch interception proxy — verification of the interceptor / policy layer

Shallow embedding of the Vouch proxy (`package main`, the `VouchProxy`
reverse-proxy interceptor) together with the approval gateway handlers and
the rekey handler, translated from the Go source.  Pure data is modelled
directly; the mutable proxy state (`sync.Map`s, the worker queue) is modelled
as explicit state passed through each operation.

Modelling conventions:

* `map[string]interface{}` JSON parameter objects become association lists
  `List (String × JVal)` with first-match lookup and shadowing insert.
* The ledger worker is modelled at its interface: `Submit` appends to
  `ProxyState.queue`; `IsHealthy` reads `ProxyState.healthy` (the worker
  internals are out of scope for the interceptor-level claims).
* Random event ids (`uuid.New().String()[:8]`) are modelled by an id supply
  `gen : Nat → String` together with a counter `ProxyState.nextId`.
* `sendErrorResponse` in the source only marshals and logs the JSON-RPC
  error; its own implementation note records that short-circuiting from an
  `httputil.ReverseProxy` Director is not implemented, so after the director
  hook returns the reverse proxy always forwards the request upstream with
  the restored original body.  `RequestOutcome` makes this explicit:
  `loggedError` is what was handed to `sendErrorResponse`,
  `directResponse` (the HTTP response written by the proxy itself) is
  always `none`, and `upstreamCalled` is always `true`.
-/

namespace Vouch

/-- JSON values as they occur in `map[string]interface{}` parameters. -/
inductive JVal where
  | str (s : String)
  | num (n : Int)
  | boolean (b : Bool)
  | null
  | arr (elems : List JVal)
  | obj (fields : List (String × JVal))
deriving Repr

mutual

/-- Structural equality of JSON values (models Go interface equality /
`reflect.DeepEqual` as used on decoded JSON). -/
def JVal.beq : JVal → JVal → Bool
  | .str a, .str b => a == b
  | .num a, .num b => a == b
  | .boolean a, .boolean b => a == b
  | .null, .null => true
  | .arr a, .arr b => JVal.beqList a b
  | .obj a, .obj b => JVal.beqFields a b
  | _, _ => false

/-- Elementwise `JVal.beq` on arrays. -/
def JVal.beqList : List JVal → List JVal → Bool
  | [], [] => true
  | x :: xs, y :: ys => JVal.beq x y && JVal.beqList xs ys
  | _, _ => false

/-- Elementwise `JVal.beq` on objects. -/
def JVal.beqFields : List (String × JVal) → List (String × JVal) → Bool
  | [], [] => true
  | (k₁, x) :: xs, (k₂, y) :: ys =>
    k₁ == k₂ && JVal.beq x y && JVal.beqFields xs ys
  | _, _ => false

end

instance : BEq JVal := ⟨JVal.beq⟩

/-- Association-list map: first-match lookup. -/
def lookupKey {α : Type} (m : List (String × α)) (k : String) : Option α :=
  match m with
  | [] => none
  | (k₀, v₀) :: rest => if k₀ = k then some v₀ else lookupKey rest k

/-- Association-list map: insert by shadowing (models `sync.Map.Store` /
Go map assignment together with `lookupKey`). -/
def insertKey {α : Type} (m : List (String × α)) (k : String) (v : α) :
    List (String × α) :=
  (k, v) :: m

/-- Leading-segment equality of character lists (helper for substring
search). -/
def leadEq : List Char → List Char → Bool
  | [], _ => true
  | _ :: _, [] => false
  | a :: as, b :: bs => a == b && leadEq as bs

/-- `t` occurs as a contiguous substring of `s` (helper for the
spec-modelled `contains` operator on strings). -/
def strContainsSub (s t : String) : Bool :=
  go s.toList
where
  go : List Char → Bool
    | [] => t.toList.isEmpty
    | c :: rest => leadEq t.toList (c :: rest) || go rest

/-- A parsed JSON-RPC (MCP) request: `MCPRequest` from the source
(`jsonrpc` and `id` fields are not used by the interceptor logic). -/
structure MCPRequest where
  method : String
  params : List (String × JVal)
deriving Repr

/-- A parsed JSON-RPC (MCP) response: `MCPResponse` from the source
(`result` is `none` when the `Result` map is nil). -/
structure MCPResponse where
  result : Option (List (String × JVal)) := none
deriving Repr

/-- A ledger event as built by the interceptor (`proxy.Event`).  Fields the
worker assigns at commit time (seq, hashes, signature) and the wall-clock
timestamp are outside the interceptor model.  Defaults are Go zero values. -/
structure Event where
  id : String
  eventType : String
  method : String := ""
  params : List (String × JVal) := []
  response : Option (List (String × JVal)) := none
  taskID : String := ""
  taskState : String := ""
  parentID : String := ""
  policyID : String := ""
  riskLevel : String := ""
  wasBlocked : Bool := false
deriving Repr

/-- Modelled from the spec: one `key op value` condition of a policy rule
(`internal/proxy` conditions are not under `src/`). -/
structure Cond where
  key : String
  op : String
  value : JVal
deriving Repr

/-- A policy rule (`proxy.PolicyRule`). -/
structure PolicyRule where
  id : String
  matchMethods : List String
  action : String
  riskLevel : String := ""
  redact : List String := []
  conditions : Option (List Cond) := none
deriving Repr

/-- Split a character list into the tokens between `.` separators. -/
def dotTokens : List Char → List (List Char)
  | [] => [[]]
  | c :: rest =>
    let r := dotTokens rest
    if c = '.' then [] :: r
    else
      match r with
      | [] => [[c]]
      | t :: ts => (c :: t) :: ts

/-- Modelled from the spec: `internal/proxy.MatchPattern` is not under
`src/`.  Single-token glob over dotted method names, no regex: the pattern
`*` matches any method; otherwise pattern and method are split on `.` and
must have the same number of tokens, each pattern token being either `*`
or equal to the method token. -/
def MatchPattern (pattern method : String) : Bool :=
  if pattern = "*" then true
  else
    let pts := dotTokens pattern.toList
    let mts := dotTokens method.toList
    pts.length = mts.length &&
      (List.zip pts mts).all fun pm => pm.1 = ['*'] || pm.1 = pm.2

/-- Modelled from the spec: evaluation of a single condition over the
params (missing key fails; operators eq, neq, in, gt, lt, contains). -/
def evalCond (params : List (String × JVal)) (c : Cond) : Bool :=
  match lookupKey params c.key with
  | none => false
  | some v =>
    match c.op with
    | "eq" => JVal.beq v c.value
    | "neq" => !JVal.beq v c.value
    | "in" =>
      match c.value with
      | JVal.arr elems => elems.contains v
      | _ => false
    | "gt" =>
      match v, c.value with
      | JVal.num a, JVal.num b => b < a
      | _, _ => false
    | "lt" =>
      match v, c.value with
      | JVal.num a, JVal.num b => a < b
      | _, _ => false
    | "contains" =>
      match v, c.value with
      | JVal.arr elems, w => elems.contains w
      | JVal.str s, JVal.str t => strContainsSub s t
      | _, _ => false
    | _ => false

/-- Modelled from the spec: `internal/proxy.CheckConditions`, the
conjunction of a rule's conditions over the request params. -/
def CheckConditions (cs : List Cond) (params : List (String × JVal)) : Bool :=
  cs.all (evalCond params)

/-- One rule applies to `(method, params)`: some pattern in
`matchMethods` matches the method and the conditions (when present) hold.
This is the body of the inner pattern loop of `shouldStallMethod`. -/
def ruleMatches (r : PolicyRule) (method : String)
    (params : List (String × JVal)) : Bool :=
  r.matchMethods.any fun pattern =>
    MatchPattern pattern method &&
      (match r.conditions with
       | none => true
       | some cs => CheckConditions cs params)

/-- The rule loop of `VouchProxy.shouldStallMethod`: scan the rules in
declaration order, skipping every rule whose action is not `"stall"`;
return the first stall rule that applies. -/
def shouldStallScan (method : String) (params : List (String × JVal)) :
    List PolicyRule → Bool × Option PolicyRule
  | [] => (false, none)
  | r :: rest =>
    if r.action ≠ "stall" then shouldStallScan method params rest
    else if ruleMatches r method params then (true, some r)
    else shouldStallScan method params rest

/-- `VouchProxy.shouldStallMethod` (entry): an empty method name fails the
assertion and returns `(false, none)`; otherwise scan the rules. -/
def shouldStallMethod (policies : List PolicyRule) (method : String)
    (params : List (String × JVal)) : Bool × Option PolicyRule :=
  if method = "" then (false, none)
  else shouldStallScan method params policies

/-- Written from the spec's words, for comparison with `shouldStallMethod`
(refinement check for the decision function): the first rule in declaration
order that applies, **whatever its action**. -/
def specFirstMatchingRule (policies : List PolicyRule) (method : String)
    (params : List (String × JVal)) : Option PolicyRule :=
  policies.find? fun r => ruleMatches r method params

/-- The first applicable rule among the stall rules only, in declaration
order (the behaviour the source actually implements, stated
declaratively). -/
def firstStallRule (policies : List PolicyRule) (method : String)
    (params : List (String × JVal)) : Option PolicyRule :=
  (policies.filter fun r => r.action = "stall").find? fun r =>
    ruleMatches r method params

/-- The mutable state of the running proxy: the worker's health flag and
submission queue (worker interface), the three `sync.Map`s of `VouchProxy`,
and the id-supply counter. -/
structure ProxyState where
  healthy : Bool
  queue : List Event
  stallSignals : List (String × Option Bool)
  lastEventByTask : List (String × String)
  activeTasks : List (String × String)
  nextId : Nat
deriving Repr

/-- The state of a freshly wired proxy (`main`): empty maps, empty queue. -/
def initState (healthy : Bool) : ProxyState :=
  { healthy := healthy
    queue := []
    stallSignals := []
    lastEventByTask := []
    activeTasks := []
    nextId := 0 }

/-- An incoming HTTP request as seen by the director hook.  `bodyLen`
models `len(bodyBytes)`; `parsed` models the outcome of
`json.Unmarshal(bodyBytes, &mcpReq)`; `rawBody` stands for the body bytes
that are restored into `req.Body` and forwarded upstream. -/
structure Request where
  httpMethod : String
  bodyLen : Nat
  rawBody : String
  parsed : Option MCPRequest
deriving Repr

/-- `VouchProxy.extractTaskMetadata`: body non-empty and under 5 MiB,
JSON-RPC parses, method non-empty, optional string `task_id` of at most
64 bytes; the task state is always `"working"`. -/
def extractTaskMetadata (bodyLen : Nat) (parsed : Option MCPRequest) :
    Except String (MCPRequest × String × String) :=
  if bodyLen = 0 then .error "request body is empty"
  else if 5 * 1024 * 1024 ≤ bodyLen then .error "request body too large"
  else
    match parsed with
    | none => .error "invalid JSON-RPC"
    | some mcpReq =>
      if mcpReq.method = "" then .error "method must not be empty"
      else
        let taskID :=
          match lookupKey mcpReq.params "task_id" with
          | some (JVal.str s) => s
          | _ => ""
        if taskID ≠ "" && 64 < taskID.utf8ByteSize then
          .error "task_id too long"
        else .ok (mcpReq, taskID, "working")

/-- `VouchProxy.evaluatePolicy`: assert a non-empty method (the policy
pointer is always non-nil in the model), then defer to
`shouldStallMethod`. -/
def evaluatePolicy (policies : List PolicyRule) (method : String)
    (params : List (String × JVal)) :
    Except String (Bool × Option PolicyRule) :=
  if method = "" then .error "method name required"
  else .ok (shouldStallMethod policies method params)

/-- `redactParams`: rebuild the params map, replacing the value at every
listed key by the string `"[REDACTED]"` and copying all other entries. -/
def redactParams (params : List (String × JVal)) (keys : List String) :
    List (String × JVal) :=
  params.map fun kv =>
    if kv.1 ∈ keys then (kv.1, JVal.str "[REDACTED]") else kv

/-- `VouchProxy.redactSensitiveData`: asserts and defers to
`redactParams`. -/
def redactSensitiveData (params : List (String × JVal))
    (keys : List String) : List (String × JVal) :=
  redactParams params keys

/-- `VouchProxy.handleStall`: submit a `blocked` event carrying the
original (unredacted) params, register a fresh buffered approval channel
under the new event id, then block on the channel.  The boolean received
on the channel is the oracle argument `approved`; after the receive the
buffered channel is empty again and the registry entry is **not**
removed.  Returns the updated state and whether the stall was approved
(`false` models the `"stall rejected"` error return). -/
def handleStall (gen : Nat → String) (approved : Bool) (st : ProxyState)
    (taskID taskState : String) (mcpReq : MCPRequest)
    (matchedRule : PolicyRule) : ProxyState × Bool :=
  let eventID := gen st.nextId
  let ev : Event :=
    { id := eventID
      eventType := "blocked"
      method := mcpReq.method
      params := mcpReq.params
      taskID := taskID
      taskState := taskState
      policyID := matchedRule.id
      riskLevel := matchedRule.riskLevel
      wasBlocked := true }
  ({ st with
      nextId := st.nextId + 1
      queue := st.queue ++ [ev]
      stallSignals := insertKey st.stallSignals eventID none },
   approved)

/-- The `tool_call` event built by `submitToolCallEvent`: params are
redacted when the matched rule lists redact keys, `policyID` / `riskLevel`
are copied from the matched rule, and `parentID` is the last event id
recorded for the (non-empty) task id. -/
def toolCallEvent (gen : Nat → String) (st : ProxyState)
    (taskID taskState : String) (mcpReq : MCPRequest)
    (matchedRule : Option PolicyRule) : Event :=
  { id := gen st.nextId
    eventType := "tool_call"
    method := mcpReq.method
    params :=
      match matchedRule with
      | some r =>
        if r.redact ≠ [] then redactSensitiveData mcpReq.params r.redact
        else mcpReq.params
      | none => mcpReq.params
    taskID := taskID
    taskState := taskState
    policyID := (matchedRule.map PolicyRule.id).getD ""
    riskLevel := (matchedRule.map PolicyRule.riskLevel).getD ""
    parentID :=
      if taskID ≠ "" then (lookupKey st.lastEventByTask taskID).getD ""
      else "" }

/-- `VouchProxy.submitToolCallEvent`: build the `tool_call` event
(`toolCallEvent`); for a non-empty task id update the last-event-per-task
map and the active-tasks map; finally submit the event. -/
def submitToolCallEvent (gen : Nat → String) (st : ProxyState)
    (taskID taskState : String) (mcpReq : MCPRequest)
    (matchedRule : Option PolicyRule) : ProxyState :=
  let ev := toolCallEvent gen st taskID taskState mcpReq matchedRule
  let st :=
    if taskID ≠ "" then
      { st with
          lastEventByTask := insertKey st.lastEventByTask taskID ev.id
          activeTasks := insertKey st.activeTasks taskID taskState }
    else st
  { st with nextId := st.nextId + 1, queue := st.queue ++ [ev] }

/-- What the director hook did: the arguments handed to
`sendErrorResponse`, which only marshals and logs them (no HTTP response
is written: see the implementation note in the source). -/
structure InterceptResult where
  loggedError : Option (Nat × Int × String) := none
deriving Repr

/-- `VouchProxy.interceptRequest`, the director hook.  Non-POST requests
are ignored.  Otherwise: extract metadata (400 on failure), check worker
health (503 `"Ledger Storage Failure"`), evaluate policy (400), run the
stall workflow when the policy stalls (403 on rejection), and finally
submit the `tool_call` event. -/
def interceptRequest (gen : Nat → String) (approved : Bool)
    (policies : List PolicyRule) (st : ProxyState) (req : Request) :
    ProxyState × InterceptResult :=
  if req.httpMethod ≠ "POST" then (st, {})
  else
    match extractTaskMetadata req.bodyLen req.parsed with
    | .error e => (st, { loggedError := some (400, -32000, e) })
    | .ok (mcpReq, taskID, taskState) =>
      if !st.healthy then
        (st, { loggedError := some (503, -32000, "Ledger Storage Failure") })
      else
        match evaluatePolicy policies mcpReq.method mcpReq.params with
        | .error _ => (st, { loggedError := some (400, -32000, "Policy violation") })
        | .ok (stall, matchedRule) =>
          if stall then
            match matchedRule with
            | some rule =>
              let res := handleStall gen approved st taskID taskState mcpReq rule
              if res.2 then
                (submitToolCallEvent gen res.1 taskID taskState mcpReq matchedRule, {})
              else
                (res.1, { loggedError := some (403, -32000, "Stall rejected or failed") })
            | none =>
              -- unreachable: `shouldStallMethod` returns a rule whenever it
              -- stalls; the nil-rule assertion in `handleStall` would fail
              (st, { loggedError := some (403, -32000, "Stall rejected or failed") })
          else (submitToolCallEvent gen st taskID taskState mcpReq matchedRule, {})

/-- The observable fate of one proxied request.  Because
`sendErrorResponse` cannot write an HTTP response and the director cannot
short-circuit `httputil.ReverseProxy`, the proxy never writes a direct
response and always forwards the request upstream with the restored
original body; the client receives whatever the upstream answers. -/
structure RequestOutcome where
  result : InterceptResult
  upstreamCalled : Bool
  upstreamBody : String
  directResponse : Option Nat
deriving Repr

/-- The full per-request pipeline: run the director hook
(`interceptRequest`), then the reverse proxy forwards the request
upstream unconditionally. -/
def handleProxyRequest (gen : Nat → String) (approved : Bool)
    (policies : List PolicyRule) (st : ProxyState) (req : Request) :
    ProxyState × RequestOutcome :=
  let res := interceptRequest gen approved policies st req
  (res.1,
   { result := res.2
     upstreamCalled := true
     upstreamBody := req.rawBody
     directResponse := none })

/-- An upstream HTTP response as seen by `ModifyResponse`: the body bytes
that are read and restored, and the outcome of `json.Unmarshal` into
`MCPResponse`. -/
structure UpstreamResponse where
  rawBody : String
  parsed : Option MCPResponse
deriving Repr

/-- What `interceptResponse` returns to the reverse proxy: the body
installed back into the response, and the error returned by the hook. -/
structure ResponseOutcome where
  body : String
  err : Option String
deriving Repr

/-- `VouchProxy.interceptResponse`, the `ModifyResponse` hook: read and
restore the body; skip (nil error, no event) when the body is not a
JSON-RPC response or the worker is unhealthy; otherwise pull `task_id`
and `state` strings out of `result`, update the active-tasks map when a
state is present for a non-empty task id, and submit a `tool_response`
event carrying `result`. -/
def interceptResponse (gen : Nat → String) (st : ProxyState)
    (resp : UpstreamResponse) : ProxyState × ResponseOutcome :=
  match resp.parsed with
  | none => (st, { body := resp.rawBody, err := none })
  | some mcpResp =>
    if !st.healthy then (st, { body := resp.rawBody, err := none })
    else
      let taskID :=
        match mcpResp.result with
        | some r =>
          match lookupKey r "task_id" with
          | some (JVal.str s) => s
          | _ => ""
        | none => ""
      let stateField :=
        match mcpResp.result with
        | some r =>
          match lookupKey r "state" with
          | some (JVal.str s) => some s
          | _ => none
        | none => none
      let taskState := stateField.getD ""
      let newTasks :=
        match stateField with
        | some s =>
          if taskID ≠ "" then insertKey st.activeTasks taskID s
          else st.activeTasks
        | none => st.activeTasks
      let st := { st with activeTasks := newTasks }
      let ev : Event :=
        { id := gen st.nextId
          eventType := "tool_response"
          response := mcpResp.result
          taskID := taskID
          taskState := taskState }
      ({ st with nextId := st.nextId + 1, queue := st.queue ++ [ev] },
       { body := resp.rawBody, err := none })

/-- `VouchProxy.handleApprove`: 400 on an empty event id; 404 when the id
is not in the stall-signal registry; otherwise try a non-blocking send of
`true` on the buffered channel — 200 when the buffer was empty, 409 when
a signal is already buffered.  The registry entry is never removed. -/
def handleApprove (signals : List (String × Option Bool))
    (eventID : String) : List (String × Option Bool) × Nat :=
  if eventID = "" then (signals, 400)
  else
    match lookupKey signals eventID with
    | none => (signals, 404)
    | some (some _) => (signals, 409)
    | some none => (insertKey signals eventID (some true), 200)

/-- `VouchProxy.handleReject`: identical to `handleApprove` but sends
`false`. -/
def handleReject (signals : List (String × Option Bool))
    (eventID : String) : List (String × Option Bool) × Nat :=
  if eventID = "" then (signals, 400)
  else
    match lookupKey signals eventID with
    | none => (signals, 404)
    | some (some _) => (signals, 409)
    | some none => (insertKey signals eventID (some false), 200)

/-- The stalled request's side of the channel: receive the buffered
signal, leaving the channel empty but the registry entry in place. -/
def consumeStallSignal (signals : List (String × Option Bool))
    (eventID : String) : List (String × Option Bool) × Option Bool :=
  match lookupKey signals eventID with
  | some (some b) => (insertKey signals eventID none, some b)
  | _ => (signals, none)

/-- The HTTP response written by `handleRekey`. -/
structure RekeyResponse where
  status : Nat
  body : String
deriving Repr

/-- `VouchProxy.handleRekey`: call `RotateKey` on the worker's signer
(the rotation itself lives in the `crypto` package, outside `src/`, so
its outcome is the oracle argument); answer 500 with the error on
failure, else 200 with the old and new public key hex.  Nothing is
submitted to the ledger queue and the proxy state is untouched. -/
def handleRekey (st : ProxyState)
    (rotation : Except String (String × String)) :
    ProxyState × RekeyResponse :=
  match rotation with
  | .error e =>
    (st, { status := 500, body := "Failed to rotate key: " ++ e })
  | .ok keys =>
    (st,
     { status := 200
       body := "Key rotated successfully\nOld: " ++ keys.1 ++
               "\nNew: " ++ keys.2 })

/-- One observable operation on the proxy: a proxied request (with the
stall-resolution oracle), an upstream response, an approve / reject /
rekey API call, or the stalled goroutine consuming its signal. -/
inductive Step where
  | req (r : Request) (approved : Bool)
  | resp (r : UpstreamResponse)
  | approve (eventID : String)
  | reject (eventID : String)
  | consume (eventID : String)
  | rekey (rotation : Except String (String × String))

/-- State transition of a single step. -/
def stepState (gen : Nat → String) (policies : List PolicyRule)
    (st : ProxyState) : Step → ProxyState
  | .req r approved => (interceptRequest gen approved policies st r).1
  | .resp r => (interceptResponse gen st r).1
  | .approve e => { st with stallSignals := (handleApprove st.stallSignals e).1 }
  | .reject e => { st with stallSignals := (handleReject st.stallSignals e).1 }
  | .consume e => { st with stallSignals := (consumeStallSignal st.stallSignals e).1 }
  | .rekey rotation => (handleRekey st rotation).1

/-- Run a whole trace of steps from the initial state. -/
def runTrace (gen : Nat → String) (policies : List PolicyRule)
    (healthy : Bool) (steps : List Step) : ProxyState :=
  steps.foldl (stepState gen policies) (initState healthy)

/-! ## The task-hierarchy invariant

Every event id the model hands out is `gen` of the id counter, the
counter equals the queue length (each submission increments both), every
entry of the last-event-per-task map names a `tool_call` event already in
the queue for that task, and every non-empty `parentID` names an earlier
`tool_call` event with the same task id. -/

/-- Every event whose `parentID` is non-empty points to a strictly
earlier `tool_call` event of the same task: the ledger's parent graph
only ever links backwards. -/
def ParentLinksPrior (q : List Event) : Prop :=
  ∀ i (h : i < q.length), (q.get ⟨i, h⟩).parentID ≠ "" →
    ∃ j, ∃ h2 : j < q.length, j < i ∧
      (q.get ⟨j, h2⟩).id = (q.get ⟨i, h⟩).parentID ∧
      (q.get ⟨j, h2⟩).taskID = (q.get ⟨i, h⟩).taskID ∧
      (q.get ⟨j, h2⟩).eventType = "tool_call"

/-- Reachability invariant of the proxy state. -/
structure Inv (gen : Nat → String) (st : ProxyState) : Prop where
  len_eq : st.nextId = st.queue.length
  id_eq : ∀ i (h : i < st.queue.length), (st.queue.get ⟨i, h⟩).id = gen i
  map_ok : ∀ t eid, lookupKey st.lastEventByTask t = some eid →
    ∃ j, ∃ h : j < st.queue.length,
      (st.queue.get ⟨j, h⟩).id = eid ∧ (st.queue.get ⟨j, h⟩).taskID = t ∧
      (st.queue.get ⟨j, h⟩).eventType = "tool_call"
  parent_ok : ParentLinksPrior st.queue

/-- The parent edge of the ledger's task graph: event `i` points to event
`j` when `i`'s `parentID` is `j`'s id. -/
def parentEdge (q : List Event) (i j : Nat) : Prop :=
  ∃ hi : i < q.length, ∃ hj : j < q.length,
    (q.get ⟨i, hi⟩).parentID ≠ "" ∧
    (q.get ⟨i, hi⟩).parentID = (q.get ⟨j, hj⟩).id

/-! ## Concrete fixtures used by the closed theorems -/

/-- A concrete id supply: decimal rendering of the counter. -/
def idGen : Nat → String := fun n => Nat.repr n

/-- An injective id supply for the hierarchy theorems. -/
def repGen : Nat → String := fun n => String.mk (List.replicate n 'a')

/-- A catch-all `allow` rule. -/
def allowAll : PolicyRule := { id := "r1", matchMethods := ["*"], action := "allow" }

/-- A catch-all `stall` rule. -/
def stallAll : PolicyRule := { id := "r2", matchMethods := ["*"], action := "stall" }

/-- The spec's critical stall rule for `db.drop_root`. -/
def stallDrop : PolicyRule :=
  { id := "protect-db", matchMethods := ["db.drop_root"], action := "stall"
    riskLevel := "critical" }

/-- A stall rule for `auth.login` with redaction keys. -/
def stallLogin : PolicyRule :=
  { id := "redact-login", matchMethods := ["auth.login"], action := "stall"
    riskLevel := "high", redact := ["password", "token"] }

/-- A well-formed POST call to `fs.read`. -/
def reqRead : Request :=
  { httpMethod := "POST", bodyLen := 57, rawBody := "read-body"
    parsed := some { method := "fs.read", params := [] } }

/-- A well-formed POST call to `db.drop_root`. -/
def reqDrop : Request :=
  { httpMethod := "POST", bodyLen := 64, rawBody := "drop-body"
    parsed := some { method := "db.drop_root"
                     params := [("table", JVal.str "users")] } }

/-- A well-formed POST call to `auth.login` whose password equals another
parameter's value. -/
def reqLogin : Request :=
  { httpMethod := "POST", bodyLen := 80, rawBody := "login-body"
    parsed := some { method := "auth.login"
                     params := [("user", JVal.str "a"),
                                ("password", JVal.str "a")] } }

/-- A GET request with an oversized body. -/
def reqGet : Request :=
  { httpMethod := "GET", bodyLen := 6 * 1024 * 1024, rawBody := "get-body"
    parsed := none }

/-- A POST request whose body is exactly 5 MiB. -/
def reqBig : Request :=
  { httpMethod := "POST", bodyLen := 5 * 1024 * 1024, rawBody := "big-body"
    parsed := none }

/-- A stall-signal registry holding one pending (unsignaled) entry. -/
def sigOne : List (String × Option Bool) := [("e1", none)]

/-- A POST request carrying `task_id = "T1"`, calling `fs.read`. -/
def reqTask1 : Request :=
  { httpMethod := "POST", bodyLen := 70, rawBody := "t1-body"
    parsed := some { method := "fs.read"
                     params := [("task_id", JVal.str "T1")] } }

/-- A second POST request for the same task `T1`. -/
def reqTask2 : Request :=
  { httpMethod := "POST", bodyLen := 72, rawBody := "t2-body"
    parsed := some { method := "fs.write"
                     params := [("task_id", JVal.str "T1")] } }

/-! ## Helper lemmas -/

theorem lookupKey_insertKey {α : Type} (m : List (String × α)) (k k' : String)
    (v : α) :
    lookupKey (insertKey m k v) k' = if k = k' then some v else lookupKey m k' :=
  rfl

theorem isSome_lookupKey_insertKey {α : Type} (m : List (String × α))
    (k k' : String) (v : α) (hk : (lookupKey m k).isSome) :
    (lookupKey (insertKey m k v) k').isSome = (lookupKey m k').isSome := by
  rw [lookupKey_insertKey]
  by_cases h : k = k'
  · subst h
    simp [hk]
  · simp [h]

theorem repGen_injective : Function.Injective repGen := by
  intro m n h
  have h2 := congrArg (fun s => s.data.length) h
  simpa [repGen] using h2

theorem shouldStallScan_eq_firstStall (method : String)
    (params : List (String × JVal)) (policies : List PolicyRule) :
    shouldStallScan method params policies =
      match firstStallRule policies method params with
      | some r => (true, some r)
      | none => (false, none) := by
  induction policies with
  | nil => simp [shouldStallScan, firstStallRule]
  | cons r rest ih =>
    by_cases ha : r.action = "stall"
    · by_cases hm : ruleMatches r method params
      · simp [shouldStallScan, firstStallRule, ha, hm, List.filter_cons]
      · have h1 : shouldStallScan method params (r :: rest) =
            shouldStallScan method params rest := by
          simp [shouldStallScan, ha, hm]
        have h2 : firstStallRule (r :: rest) method params =
            firstStallRule rest method params := by
          simp [firstStallRule, List.filter_cons, ha, hm]
        rw [h1, h2]
        exact ih
    · have h1 : shouldStallScan method params (r :: rest) =
          shouldStallScan method params rest := by
        simp [shouldStallScan, ha]
      have h2 : firstStallRule (r :: rest) method params =
          firstStallRule rest method params := by
        simp [firstStallRule, List.filter_cons, ha]
      rw [h1, h2]
      exact ih

/-! ## C2: the policy decision function -/

/-- C2 counterexample.  The spec's decision function would pick the first
rule in declaration order that applies, whatever its action: with the
policy `[allowAll, stallAll]` (a catch-all `allow` followed by a catch-all
`stall`) it picks `allowAll` and the call is allowed.  The code's
`shouldStallMethod` skips every non-stall rule, so the same call is
stalled by `stallAll`: the decision is **not** the first matching rule. -/
theorem C2_counterexample :
    shouldStallMethod [allowAll, stallAll] "fs.read" [] = (true, some stallAll) ∧
    specFirstMatchingRule [allowAll, stallAll] "fs.read" [] = some allowAll ∧
    allowAll.action = "allow" ∧ stallAll.action = "stall" :=
  ⟨rfl, rfl, rfl, rfl⟩

/-- C2 (amended): for every `(method, params)` with a non-empty method,
the decision is the first rule **with action `stall`** in declaration
order whose `match_methods` contain a matching pattern and whose
conditions (if any) hold; rules with any other action are skipped.  If no
stall rule matches, the decision is `(false, none)`: allow with no
redaction. -/
theorem C2_decision_first_stall_rule (policies : List PolicyRule)
    (method : String) (params : List (String × JVal)) (h : method ≠ "") :
    shouldStallMethod policies method params =
      match firstStallRule policies method params with
      | some r => (true, some r)
      | none => (false, none) := by
  unfold shouldStallMethod
  rw [if_neg h]
  exact shouldStallScan_eq_firstStall method params policies

/-- C2 witness: the amended decision function evaluated on the
counterexample policy at `fs.read`. -/
theorem C2_witness :
    shouldStallMethod [allowAll, stallAll] "fs.read" [] =
      match firstStallRule [allowAll, stallAll] "fs.read" [] with
      | some r => (true, some r)
      | none => (false, none) :=
  C2_decision_first_stall_rule [allowAll, stallAll] "fs.read" [] (by decide)

/-! ## C1: health gating -/

/-- C1: evaluation at the failing input.  With the worker unhealthy, a
well-formed POST call to `fs.read` makes `interceptRequest` hand
`(503, -32000, "Ledger Storage Failure")` to `sendErrorResponse` — which
only logs it — and the proxy state is untouched (no event appended), yet
the proxy writes no direct response and still forwards the request
upstream, so the client receives whatever the upstream answers (possibly
a 2xx).  This contradicts the claim that the request is rejected with
HTTP 503 and not forwarded: the director cannot short-circuit
`httputil.ReverseProxy`, as the source's own implementation note in
`sendErrorResponse` records. -/
theorem C1_unhealthy_request_still_forwarded :
    handleProxyRequest idGen true [] (initState false) reqRead =
      (initState false,
       { result :=
           { loggedError := some (503, -32000, "Ledger Storage Failure") }
         upstreamCalled := true
         upstreamBody := "read-body"
         directResponse := none }) :=
  rfl

/-! ## C3: stall resolved by rejection -/

/-- C3: evaluation at the failing input.  A POST call to `db.drop_root`
is stalled by `stallDrop` and resolved by rejection (the approval channel
delivers `false`).  The final state holds exactly one event — the
`blocked` event — so no `rejection` event and no `tool_call` event is
ever submitted; `(403, -32000, ...)` is handed to `sendErrorResponse`,
which only logs it; and the request is still forwarded upstream.  This
contradicts the claim that a rejected stall submits a `rejection` event,
returns HTTP 403, and never calls the upstream (only the "no `tool_call`"
part holds). -/
theorem C3_rejected_stall_still_forwarded :
    handleProxyRequest idGen false [stallDrop] (initState true) reqDrop =
      ({ healthy := true
         queue := [{ id := "0"
                     eventType := "blocked"
                     method := "db.drop_root"
                     params := [("table", JVal.str "users")]
                     taskState := "working"
                     policyID := "protect-db"
                     riskLevel := "critical"
                     wasBlocked := true }]
         stallSignals := [("0", none)]
         lastEventByTask := []
         activeTasks := []
         nextId := 1 },
       { result := { loggedError := some (403, -32000, "Stall rejected or failed") }
         upstreamCalled := true
         upstreamBody := "drop-body"
         directResponse := none }) :=
  rfl

/-! ## C5: key rotation -/

/-- C5 counterexample: a successful `POST /api/rekey` answers 200 with
the old/new public keys, but the ledger queue still holds no event at
all — no synthetic `rekey` event is emitted, contrary to the claim. -/
theorem C5_counterexample :
    (handleRekey (initState true) (.ok ("ab", "cd"))).2.status = 200 ∧
    (handleRekey (initState true) (.ok ("ab", "cd"))).1.queue = [] :=
  ⟨rfl, rfl⟩

/-- C5 (amended): a successful key-rotation request rotates the signing
keypair and responds 200 with the old/new public key hex in the body; on
failure it responds 500.  It submits **no** event to the ledger and
leaves the proxy state untouched. -/
theorem C5_rekey_no_ledger_event (st : ProxyState)
    (rotation : Except String (String × String)) :
    (handleRekey st rotation).1 = st ∧
    (∀ k₁ k₂, rotation = .ok (k₁, k₂) →
      (handleRekey st rotation).2 =
        { status := 200
          body := "Key rotated successfully\nOld: " ++ k₁ ++ "\nNew: " ++ k₂ }) ∧
    (∀ e, rotation = .error e → (handleRekey st rotation).2.status = 500) := by
  refine ⟨?_, ?_, ?_⟩
  · cases rotation <;> rfl
  · intro k₁ k₂ hrot
    subst hrot
    rfl
  · intro e hrot
    subst hrot
    rfl

/-- C5 witness: the amended statement applied at a concrete successful
rotation. -/
theorem C5_witness :
    (handleRekey (initState true) (Except.ok ("ab", "cd"))).2 =
      { status := 200, body := "Key rotated successfully\nOld: ab\nNew: cd" } :=
  (C5_rekey_no_ledger_event (initState true) (.ok ("ab", "cd"))).2.1 "ab" "cd" rfl

/-! ## C6: approval gateway signal semantics -/

/-- C6 counterexample: with one registered pending stall `"e1"`, an
approve signal returns 200; after the stalled goroutine consumes the
signal, a **second** approve for the same id returns 200 again — not
404 as the claim requires, because the registry entry is never
removed. -/
theorem C6_counterexample :
    (handleApprove sigOne "e1").2 = 200 ∧
    (handleApprove
      (consumeStallSignal (handleApprove sigOne "e1").1 "e1").1 "e1").2 = 200 :=
  ⟨rfl, rfl⟩

/-- C6 (amended): signaling an unregistered event id returns 404;
signaling an id whose buffered signal has not yet been consumed returns
409; signaling a registered id with an empty buffer stores the signal and
returns 200.  Registry entries are **never** removed: consuming a signal
preserves the registered ids, so once the stalled request has consumed
its signal a later signal for the same id succeeds with 200 again rather
than failing with 404. -/
theorem C6_gateway_signal_semantics (signals : List (String × Option Bool))
    (eventID : String) (h : eventID ≠ "") :
    (lookupKey signals eventID = none →
      handleApprove signals eventID = (signals, 404) ∧
      handleReject signals eventID = (signals, 404)) ∧
    (∀ b, lookupKey signals eventID = some (some b) →
      handleApprove signals eventID = (signals, 409) ∧
      handleReject signals eventID = (signals, 409)) ∧
    (lookupKey signals eventID = some none →
      handleApprove signals eventID = (insertKey signals eventID (some true), 200) ∧
      handleReject signals eventID = (insertKey signals eventID (some false), 200)) ∧
    (∀ k, (lookupKey (consumeStallSignal signals eventID).1 k).isSome =
      (lookupKey signals k).isSome) := by
  refine ⟨?_, ?_, ?_, ?_⟩
  · intro hl
    constructor <;> simp [handleApprove, handleReject, h, hl]
  · intro b hl
    constructor <;> simp [handleApprove, handleReject, h, hl]
  · intro hl
    constructor <;> simp [handleApprove, handleReject, h, hl]
  · intro k
    unfold consumeStallSignal
    cases hc : lookupKey signals eventID with
    | none => rfl
    | some o =>
      cases o with
      | none => rfl
      | some b =>
        exact isSome_lookupKey_insertKey signals eventID k none (by simp [hc])

/-- C6 witness: a signal for an id whose buffer is still full returns
409 and leaves the registry unchanged. -/
theorem C6_witness :
    handleApprove [("e1", some true), ("e2", none)] "e1" =
      ([("e1", some true), ("e2", none)], 409) :=
  ((C6_gateway_signal_semantics [("e1", some true), ("e2", none)] "e1"
    (by decide)).2.1 true rfl).1

/-! ## C7: request guard -/

/-- C7 counterexample: a GET request with a 6 MiB body is neither
rejected with HTTP 400 nor given any JSON-RPC error — `interceptRequest`
ignores non-POST requests entirely and the request is forwarded upstream
unchanged, contrary to the claim. -/
theorem C7_counterexample :
    handleProxyRequest idGen true [] (initState true) reqGet =
      (initState true,
       { result := { loggedError := none }
         upstreamCalled := true
         upstreamBody := "get-body"
         directResponse := none }) :=
  rfl

/-- C7 (amended): non-POST requests are not rejected: the interceptor
ignores them (no error, no event) and they are forwarded unchanged.  For
a POST request whose body is 5 MiB or larger (the guard is strict:
`len(body) < 5 MiB` is required, so exactly 5 MiB is already an error)
the interceptor hands `(400, -32000, "request body too large")` to
`sendErrorResponse` and submits nothing; the error is only logged, no
direct response is written, and the request is still forwarded upstream
with its original body. -/
theorem C7_guard_behaviour (gen : Nat → String) (approved : Bool)
    (policies : List PolicyRule) (st : ProxyState) (req : Request) :
    (req.httpMethod ≠ "POST" →
      interceptRequest gen approved policies st req = (st, { loggedError := none })) ∧
    (req.httpMethod = "POST" → 5 * 1024 * 1024 ≤ req.bodyLen →
      interceptRequest gen approved policies st req =
        (st, { loggedError := some (400, -32000, "request body too large") })) ∧
    (handleProxyRequest gen approved policies st req).2.upstreamCalled = true ∧
    (handleProxyRequest gen approved policies st req).2.directResponse = none ∧
    (handleProxyRequest gen approved policies st req).2.upstreamBody = req.rawBody := by
  refine ⟨?_, ?_, rfl, rfl, rfl⟩
  · intro h
    simp [interceptRequest, h]
  · intro hm hs
    have h0 : req.bodyLen ≠ 0 := by omega
    have he : extractTaskMetadata req.bodyLen req.parsed =
        .error "request body too large" := by
      unfold extractTaskMetadata
      rw [if_neg h0, if_pos hs]
    simp [interceptRequest, hm, he]

/-- C7 witness: the amended statement applied to a POST request with a
5 MiB body. -/
theorem C7_witness :
    interceptRequest idGen true [] (initState true) reqBig =
      (initState true,
       { loggedError := some (400, -32000, "request body too large") }) :=
  (C7_guard_behaviour idGen true [] (initState true) reqBig).2.1 rfl (by decide)

/-! ## C9: the blocked event is unredacted -/

/-- C9: for every stalled request, the `blocked` event that `handleStall`
submits to the ledger carries exactly the original request params
(`mcpReq.params` verbatim) — redaction is not applied, whatever redact
keys the matched rule lists, because redaction happens only in
`toolCallEvent` when the later `tool_call` event is built. -/
theorem C9_blocked_event_unredacted (gen : Nat → String) (approved : Bool)
    (st : ProxyState) (taskID taskState : String) (mcpReq : MCPRequest)
    (rule : PolicyRule) :
    (handleStall gen approved st taskID taskState mcpReq rule).1.queue =
      st.queue ++
        [{ id := gen st.nextId
           eventType := "blocked"
           method := mcpReq.method
           params := mcpReq.params
           taskID := taskID
           taskState := taskState
           policyID := rule.id
           riskLevel := rule.riskLevel
           wasBlocked := true }] :=
  rfl

/-! ## C10: the response interceptor is frame-preserving -/

/-- C10: `interceptResponse` always restores the body it read and returns
a nil error, and when the body does not parse as a JSON-RPC response or
the worker is unhealthy it changes nothing (in particular it submits no
event). -/
theorem C10_response_unaltered (gen : Nat → String) (st : ProxyState)
    (resp : UpstreamResponse) :
    (interceptResponse gen st resp).2.body = resp.rawBody ∧
    (interceptResponse gen st resp).2.err = none ∧
    (resp.parsed = none ∨ st.healthy = false →
      (interceptResponse gen st resp).1 = st) := by
  unfold interceptResponse
  cases hp : resp.parsed with
  | none => exact ⟨rfl, rfl, fun _ => rfl⟩
  | some m =>
    cases hh : st.healthy with
    | false => exact ⟨rfl, rfl, fun _ => rfl⟩
    | true =>
      refine ⟨rfl, rfl, ?_⟩
      rintro (h | h) <;> exact absurd h (by simp)

/-- C10 witness: a response that is not JSON-RPC leaves the state
untouched. -/
theorem C10_witness :
    (interceptResponse idGen (initState true)
      { rawBody := "resp-body", parsed := none }).1 = initState true :=
  (C10_response_unaltered idGen (initState true)
    { rawBody := "resp-body", parsed := none }).2.2 (Or.inl rfl)

/-! ## C4: redaction of committed params -/

theorem lookupKey_redactParams (params : List (String × JVal))
    (keys : List String) (k : String) :
    lookupKey (redactParams params keys) k =
      if k ∈ keys then (lookupKey params k).map (fun _ => JVal.str "[REDACTED]")
      else lookupKey params k := by
  induction params with
  | nil => by_cases hk : k ∈ keys <;> simp [redactParams, lookupKey, hk]
  | cons kv rest ih =>
    obtain ⟨k₀, v₀⟩ := kv
    simp only [redactParams] at ih ⊢
    rw [List.map_cons]
    by_cases hk0 : k₀ ∈ keys
    · rw [show (if (k₀, v₀).1 ∈ keys then ((k₀, v₀).1, JVal.str "[REDACTED]")
          else (k₀, v₀)) = (k₀, JVal.str "[REDACTED]") from if_pos hk0]
      by_cases hkk : k₀ = k
      · subst hkk
        simp [lookupKey, hk0]
      · simp [lookupKey, hkk, ih]
    · rw [show (if (k₀, v₀).1 ∈ keys then ((k₀, v₀).1, JVal.str "[REDACTED]")
          else (k₀, v₀)) = (k₀, v₀) from if_neg hk0]
      by_cases hkk : k₀ = k
      · subst hkk
        simp [lookupKey, hk0]
      · simp [lookupKey, hkk, ih]

/-- C4 counterexample.  Policy `stallLogin` stalls `auth.login` with
`redact = ["password", "token"]`; the request params are
`{user: "a", password: "a"}` and the stall is approved.  The committed
`tool_call` event's params redact `password`, but (i) the listed key
`token` is absent from the original params, so the committed params do
**not** contain `"[REDACTED]"` at that listed key, and (ii) the original
value at the redacted key `password` (the string `"a"`) still appears in
the committed params, under the unlisted key `user`.  Both universally
quantified parts of the claim fail at this input (the forwarded-body part
is not at issue). -/
theorem C4_counterexample :
    (handleProxyRequest idGen true [stallLogin] (initState true) reqLogin).1.queue.map
        (fun e => (e.eventType, e.params)) =
      [("blocked", [("user", JVal.str "a"), ("password", JVal.str "a")]),
       ("tool_call", [("user", JVal.str "a"), ("password", JVal.str "[REDACTED]")])] ∧
    lookupKey [("user", JVal.str "a"), ("password", JVal.str "[REDACTED]")] "token" = none ∧
    JVal.str "a" ∈
      ([("user", JVal.str "a"), ("password", JVal.str "[REDACTED]")].map Prod.snd) := by
  refine ⟨rfl, rfl, ?_⟩
  simp

/-- C4 (amended): for every request matching a rule with a non-empty
redact list, the committed `tool_call` event's params are
`redactParams original redact`: every listed key **present in the
original params** maps to `"[REDACTED]"`, every unlisted key keeps its
original value (so a listed key absent from the original stays absent,
and an original value may still appear under an unlisted key), and the
body forwarded upstream is the original, unredacted body. -/
theorem C4_redaction_committed_vs_forwarded (gen : Nat → String)
    (st : ProxyState) (taskID taskState : String) (mcpReq : MCPRequest)
    (r : PolicyRule) (h : r.redact ≠ []) :
    ((submitToolCallEvent gen st taskID taskState mcpReq (some r)).queue =
      st.queue ++ [toolCallEvent gen st taskID taskState mcpReq (some r)]) ∧
    (toolCallEvent gen st taskID taskState mcpReq (some r)).eventType = "tool_call" ∧
    (toolCallEvent gen st taskID taskState mcpReq (some r)).params =
      redactParams mcpReq.params r.redact ∧
    (∀ k, k ∈ r.redact →
      lookupKey (redactParams mcpReq.params r.redact) k =
        (lookupKey mcpReq.params k).map (fun _ => JVal.str "[REDACTED]")) ∧
    (∀ k, k ∉ r.redact →
      lookupKey (redactParams mcpReq.params r.redact) k =
        lookupKey mcpReq.params k) ∧
    (∀ approved policies req,
      (handleProxyRequest gen approved policies st req).2.upstreamBody =
        req.rawBody) := by
  refine ⟨?_, rfl, ?_, ?_, ?_, fun _ _ _ => rfl⟩
  · unfold submitToolCallEvent
    by_cases ht : taskID ≠ "" <;> simp [ht]
  · simp [toolCallEvent, redactSensitiveData, h]
  · intro k hk
    rw [lookupKey_redactParams, if_pos hk]
  · intro k hk
    rw [lookupKey_redactParams, if_neg hk]

/-- C4 witness: the amended statement applied to the `auth.login`
fixture. -/
theorem C4_witness :
    (toolCallEvent idGen (initState true) "" "working"
        { method := "auth.login"
          params := [("user", JVal.str "a"), ("password", JVal.str "a")] }
        (some stallLogin)).params =
      redactParams [("user", JVal.str "a"), ("password", JVal.str "a")]
        stallLogin.redact :=
  (C4_redaction_committed_vs_forwarded idGen (initState true) "" "working"
    { method := "auth.login"
      params := [("user", JVal.str "a"), ("password", JVal.str "a")] }
    stallLogin (by decide)).2.2.1

/-! ## C8: the task hierarchy is a backwards-linked forest -/

theorem lt_append_one {α : Type} (q : List α) (a : α) (j : Nat)
    (h : j < q.length) : j < (q ++ [a]).length := by
  simp only [List.length_append, List.length_cons, List.length_nil]
  omega

theorem length_lt_append {α : Type} (q : List α) (a : α) :
    q.length < (q ++ [a]).length := by
  simp

theorem get_append_lt {α : Type} (q : List α) (a : α) (i : Nat)
    (h : i < q.length) (h2 : i < (q ++ [a]).length) :
    (q ++ [a]).get ⟨i, h2⟩ = q.get ⟨i, h⟩ := by
  rw [List.get_eq_getElem, List.get_eq_getElem]
  exact List.getElem_append_left ..

theorem get_append_last {α : Type} (q : List α) (a : α)
    (h : q.length < (q ++ [a]).length) :
    (q ++ [a]).get ⟨q.length, h⟩ = a := by
  rw [List.get_eq_getElem]
  rw [List.getElem_append_right] <;> simp

/-- Appending one event preserves the invariant, provided the new event's
id is the current counter value, its parent link (when non-empty) comes
from the last-event-per-task map, and the map is either unchanged or
updated to the new event (for a `tool_call`). -/
theorem inv_append (gen : Nat → String) {st : ProxyState} (hinv : Inv gen st)
    (ev : Event) (hid : ev.id = gen st.nextId)
    (hpar : ev.parentID = "" ∨
      lookupKey st.lastEventByTask ev.taskID = some ev.parentID)
    (hb : Bool) (sig : List (String × Option Bool))
    (last act : List (String × String))
    (hlast : last = st.lastEventByTask ∨
      (ev.eventType = "tool_call" ∧
        last = insertKey st.lastEventByTask ev.taskID ev.id)) :
    Inv gen
      { healthy := hb
        queue := st.queue ++ [ev]
        stallSignals := sig
        lastEventByTask := last
        activeTasks := act
        nextId := st.nextId + 1 } := by
  constructor
  · simp [hinv.len_eq]
  · intro i h
    have h' : i < st.queue.length + 1 := by simpa using h
    rcases Nat.lt_succ_iff_lt_or_eq.mp h' with hlt | heq
    · rw [get_append_lt st.queue ev i hlt]
      exact hinv.id_eq i hlt
    · subst heq
      rw [get_append_last]
      rw [hid, hinv.len_eq]
  · intro t eid hl
    rcases hlast with hl1 | ⟨htype, hl2⟩
    · rw [hl1] at hl
      obtain ⟨j, hj, h1, h2, h3⟩ := hinv.map_ok t eid hl
      refine ⟨j, lt_append_one st.queue ev j hj, ?_, ?_, ?_⟩ <;>
        rw [get_append_lt st.queue ev j hj] <;> assumption
    · rw [hl2, lookupKey_insertKey] at hl
      by_cases ht : ev.taskID = t
      · rw [if_pos ht] at hl
        injection hl with hl'
        refine ⟨st.queue.length, length_lt_append st.queue ev, ?_, ?_, ?_⟩ <;>
          rw [get_append_last]
        · exact hl'
        · exact ht
        · exact htype
      · rw [if_neg ht] at hl
        obtain ⟨j, hj, h1, h2, h3⟩ := hinv.map_ok t eid hl
        refine ⟨j, lt_append_one st.queue ev j hj, ?_, ?_, ?_⟩ <;>
          rw [get_append_lt st.queue ev j hj] <;> assumption
  · intro i h hne
    have h' : i < st.queue.length + 1 := by simpa using h
    rcases Nat.lt_succ_iff_lt_or_eq.mp h' with hlt | heq
    · rw [get_append_lt st.queue ev i hlt] at hne ⊢
      obtain ⟨j, hj, hji, h1, h2, h3⟩ := hinv.parent_ok i hlt hne
      refine ⟨j, lt_append_one st.queue ev j hj, hji, ?_, ?_, ?_⟩ <;>
        rw [get_append_lt st.queue ev j hj] <;> assumption
    · subst heq
      rw [get_append_last] at hne ⊢
      rcases hpar with h0 | hsome
      · exact absurd h0 hne
      · obtain ⟨j, hj, h1, h2, h3⟩ := hinv.map_ok ev.taskID ev.parentID hsome
        refine ⟨j, lt_append_one st.queue ev j hj, hinv.len_eq ▸ hj, ?_, ?_, ?_⟩ <;>
          rw [get_append_lt st.queue ev j hj]
        · exact h1
        · exact h2
        · exact h3

theorem inv_handleStall (gen : Nat → String) (approved : Bool)
    (st : ProxyState) (tid tstate : String) (mcpReq : MCPRequest)
    (rule : PolicyRule) (hinv : Inv gen st) :
    Inv gen (handleStall gen approved st tid tstate mcpReq rule).1 :=
  inv_append gen hinv _ rfl (Or.inl rfl) st.healthy _ _ _ (Or.inl rfl)

theorem inv_submitToolCallEvent (gen : Nat → String) (st : ProxyState)
    (tid tstate : String) (mcpReq : MCPRequest)
    (rule? : Option PolicyRule) (hinv : Inv gen st) :
    Inv gen (submitToolCallEvent gen st tid tstate mcpReq rule?) := by
  by_cases ht : tid = ""
  · have hq : submitToolCallEvent gen st tid tstate mcpReq rule? =
        { healthy := st.healthy
          queue := st.queue ++ [toolCallEvent gen st tid tstate mcpReq rule?]
          stallSignals := st.stallSignals
          lastEventByTask := st.lastEventByTask
          activeTasks := st.activeTasks
          nextId := st.nextId + 1 } := by
      simp [submitToolCallEvent, ht]
    rw [hq]
    exact inv_append gen hinv _ rfl (Or.inl (by simp [toolCallEvent, ht]))
      st.healthy _ _ _ (Or.inl rfl)
  · have hq : submitToolCallEvent gen st tid tstate mcpReq rule? =
        { healthy := st.healthy
          queue := st.queue ++ [toolCallEvent gen st tid tstate mcpReq rule?]
          stallSignals := st.stallSignals
          lastEventByTask := insertKey st.lastEventByTask tid
            (toolCallEvent gen st tid tstate mcpReq rule?).id
          activeTasks := insertKey st.activeTasks tid tstate
          nextId := st.nextId + 1 } := by
      simp [submitToolCallEvent, ht]
    rw [hq]
    have hpar : (toolCallEvent gen st tid tstate mcpReq rule?).parentID = "" ∨
        lookupKey st.lastEventByTask
            (toolCallEvent gen st tid tstate mcpReq rule?).taskID =
          some (toolCallEvent gen st tid tstate mcpReq rule?).parentID := by
      cases hl : lookupKey st.lastEventByTask tid with
      | none => exact Or.inl (by simp [toolCallEvent, ht, hl])
      | some pid =>
        refine Or.inr ?_
        have hta : (toolCallEvent gen st tid tstate mcpReq rule?).taskID = tid :=
          rfl
        rw [hta, hl]
        have hpa : (toolCallEvent gen st tid tstate mcpReq rule?).parentID =
            pid := by
          simp [toolCallEvent, ht, hl]
        rw [hpa]
    exact inv_append gen hinv _ rfl hpar st.healthy _ _ _ (Or.inr ⟨rfl, rfl⟩)

theorem inv_interceptRequest (gen : Nat → String) (approved : Bool)
    (policies : List PolicyRule) (st : ProxyState) (req : Request)
    (hinv : Inv gen st) :
    Inv gen (interceptRequest gen approved policies st req).1 := by
  unfold interceptRequest
  split
  · exact hinv
  · split
    · exact hinv
    · split
      · exact hinv
      · split
        · exact hinv
        · split
          · split
            · dsimp only
              split
              · exact inv_submitToolCallEvent gen _ _ _ _ _
                  (inv_handleStall gen approved st _ _ _ _ hinv)
              · exact inv_handleStall gen approved st _ _ _ _ hinv
            · exact hinv
          · exact inv_submitToolCallEvent gen st _ _ _ _ hinv

theorem inv_interceptResponse (gen : Nat → String) (st : ProxyState)
    (resp : UpstreamResponse) (hinv : Inv gen st) :
    Inv gen (interceptResponse gen st resp).1 := by
  unfold interceptResponse
  cases hp : resp.parsed with
  | none => exact hinv
  | some m =>
    cases hh : st.healthy with
    | false => exact hinv
    | true =>
      apply inv_append gen hinv
      · rfl
      · exact Or.inl rfl
      · exact Or.inl rfl

theorem inv_stepState (gen : Nat → String) (policies : List PolicyRule)
    (st : ProxyState) (s : Step) (hinv : Inv gen st) :
    Inv gen (stepState gen policies st s) := by
  cases s with
  | req r a => exact inv_interceptRequest gen a policies st r hinv
  | resp r => exact inv_interceptResponse gen st r hinv
  | approve e => exact ⟨hinv.len_eq, hinv.id_eq, hinv.map_ok, hinv.parent_ok⟩
  | reject e => exact ⟨hinv.len_eq, hinv.id_eq, hinv.map_ok, hinv.parent_ok⟩
  | consume e => exact ⟨hinv.len_eq, hinv.id_eq, hinv.map_ok, hinv.parent_ok⟩
  | rekey rot =>
    cases rot with
    | error e => exact hinv
    | ok k => exact hinv

theorem inv_initState (gen : Nat → String) (healthy : Bool) :
    Inv gen (initState healthy) := by
  refine ⟨rfl, ?_, ?_, ?_⟩
  · intro i h
    exact absurd h (by simp [initState])
  · intro t eid hl
    exact absurd hl (by simp [initState, lookupKey])
  · intro i h
    exact absurd h (by simp [initState])

theorem inv_foldl (gen : Nat → String) (policies : List PolicyRule) :
    ∀ (steps : List Step) (st : ProxyState), Inv gen st →
      Inv gen (steps.foldl (stepState gen policies) st)
  | [], _, h => h
  | s :: rest, st, h =>
    inv_foldl gen policies rest _ (inv_stepState gen policies st s h)

theorem inv_runTrace (gen : Nat → String) (policies : List PolicyRule)
    (healthy : Bool) (steps : List Step) :
    Inv gen (runTrace gen policies healthy steps) :=
  inv_foldl gen policies steps _ (inv_initState gen healthy)

/-- Under an injective id supply, every parent edge points strictly
backwards in the ledger queue. -/
theorem parentEdge_lt (gen : Nat → String) (hinj : Function.Injective gen)
    {st : ProxyState} (hinv : Inv gen st) {i j : Nat}
    (h : parentEdge st.queue i j) : j < i := by
  obtain ⟨hi, hj, hne, heq⟩ := h
  obtain ⟨j₀, hj₀, hji, hpid, _, _⟩ := hinv.parent_ok i hi hne
  have h1 := hinv.id_eq j hj
  have h2 := hinv.id_eq j₀ hj₀
  have h3 : gen j₀ = gen j := by
    rw [← h1, ← h2, hpid]
    exact heq
  have h4 := hinj h3
  omega

/-- C8: in every reachable state of the proxy (any trace of requests,
responses, approvals, rejections, signal consumptions and rekeys, with
pairwise-distinct event ids), (a) every committed event with a non-empty
`parent_id` — in particular every `tool_call` with a non-empty task id —
points to a strictly earlier `tool_call` event of the same task, so the
`parent_id`/`task_id` graph only links backwards and (b) has no cycle;
and (c) each `tool_call` submission sets `parent_id` to the id most
recently recorded for its task in the last-event-per-task map (empty when
there is none) and then updates that map to the new event's id. -/
theorem C8_task_hierarchy_forest (gen : Nat → String)
    (hinj : Function.Injective gen) (policies : List PolicyRule)
    (healthy : Bool) (steps : List Step) :
    ParentLinksPrior (runTrace gen policies healthy steps).queue ∧
    (∀ i, ¬ Relation.TransGen
      (parentEdge (runTrace gen policies healthy steps).queue) i i) ∧
    (∀ st tid tstate mcpReq rule?, tid ≠ "" →
      (submitToolCallEvent gen st tid tstate mcpReq rule?).queue =
        st.queue ++ [toolCallEvent gen st tid tstate mcpReq rule?] ∧
      (toolCallEvent gen st tid tstate mcpReq rule?).parentID =
        (lookupKey st.lastEventByTask tid).getD "" ∧
      lookupKey
        (submitToolCallEvent gen st tid tstate mcpReq rule?).lastEventByTask
        tid = some (toolCallEvent gen st tid tstate mcpReq rule?).id) := by
  have hinv := inv_runTrace gen policies healthy steps
  refine ⟨hinv.parent_ok, ?_, ?_⟩
  · have hlt : ∀ a b,
        Relation.TransGen
          (parentEdge (runTrace gen policies healthy steps).queue) a b →
        b < a := by
      intro a b hab
      induction hab with
      | single h => exact parentEdge_lt gen hinj hinv h
      | tail h₁ h₂ ih => exact lt_trans (parentEdge_lt gen hinj hinv h₂) ih
    intro i hi
    exact absurd (hlt i i hi) (lt_irrefl i)
  · intro st tid tstate mcpReq rule? ht
    refine ⟨?_, ?_, ?_⟩
    · simp [submitToolCallEvent, ht]
    · simp [toolCallEvent, ht]
    · simp [submitToolCallEvent, ht, lookupKey_insertKey]

/-- C8 witness: the hierarchy statement instantiated with the injective
id supply `repGen` and a two-request trace for task `T1`. -/
theorem C8_witness :
    ParentLinksPrior
      (runTrace repGen [] true
        [Step.req reqTask1 true, Step.req reqTask2 true]).queue ∧
    (∀ i, ¬ Relation.TransGen
      (parentEdge (runTrace repGen [] true
        [Step.req reqTask1 true, Step.req reqTask2 true]).queue) i i) ∧
    (∀ st tid tstate mcpReq rule?, tid ≠ "" →
      (submitToolCallEvent repGen st tid tstate mcpReq rule?).queue =
        st.queue ++ [toolCallEvent repGen st tid tstate mcpReq rule?] ∧
      (toolCallEvent repGen st tid tstate mcpReq rule?).parentID =
        (lookupKey st.lastEventByTask tid).getD "" ∧
      lookupKey
        (submitToolCallEvent repGen st tid tstate mcpReq rule?).lastEventByTask
        tid = some (toolCallEvent repGen st tid tstate mcpReq rule?).id) :=
  C8_task_hierarchy_forest repGen repGen_injective [] true
    [Step.req reqTask1 true, Step.req reqTask2 true]

end Vouch
